import Mathlib

/-!
Shallow embedding of `juju/model/_idle.py`: the Status Reducer (`check`,
with its helper `_app_units`) and the Convergence Aggregator (`loop`,
rendered as an explicit step function on the clock state plus an
unrolling over a finite list of timed inputs).

Python `float` timestamps are modelled by `ℚ`, and the sentinel
`float("inf")` by an explicit `TimeVal.inf` constructor.  Python dicts
that are only read through `get`/bracket lookup are association lists;
the aggregator's `idle_since` dict (whose entries are iterated by the
busy check) is a finite key set together with a valuation.  Raising an
exception is modelled by `Except`: a typed juju error, or `crash` for a
`KeyError`/failed `assert` on a malformed snapshot.
-/

namespace WaitForIdle

/-- One status blob (state string plus free-text info), as used by
`_idle.py` for agent, workload, application and machine instance
statuses.  Modelled from the spec: the snapshot field classes live in
`juju/client/_definitions.py`, outside the verified sources; the spec
describes each as "a status (state + free-text info)". -/
structure DetailedStatus where
  status : String
  info : String
  deriving DecidableEq

/-- Machine entry of a snapshot: its instance status.  Modelled from the
spec: "Per machine: an instance status (state + info)". -/
structure MachineStatus where
  instance_status : DetailedStatus
  deriving DecidableEq

/-- Unit entry of a snapshot: agent status, workload status, optional
bound machine, and nested subordinate units.  Modelled from the spec:
"Per unit: an agent status (state + info), a workload status (state +
info), an optional bound machine identifier, and a mapping of
subordinate-application-name → nested unit status". -/
inductive UnitStatus where
  | mk (machine : Option String) (agent_status : DetailedStatus)
       (workload_status : DetailedStatus)
       (subordinates : List (String × UnitStatus))

def UnitStatus.machine : UnitStatus → Option String
  | .mk m _ _ _ => m

def UnitStatus.agent_status : UnitStatus → DetailedStatus
  | .mk _ a _ _ => a

def UnitStatus.workload_status : UnitStatus → DetailedStatus
  | .mk _ _ w _ => w

def UnitStatus.subordinates : UnitStatus → List (String × UnitStatus)
  | .mk _ _ _ s => s

/-- Application entry of a snapshot.  Modelled from the spec: "per
application: a status (state + free-text info), a set of units, and
optionally a list of parent applications for which this application is
a subordinate". -/
structure ApplicationStatus where
  status : DetailedStatus
  units : List (String × UnitStatus)
  subordinate_to : List String

/-- A cluster status snapshot (`FullStatus`).  Modelled from the spec's
ClusterStatusSnapshot; an application key may be present with a null
value, which the reducer's `get` treats like an absent key. -/
structure FullStatus where
  applications : List (String × Option ApplicationStatus)
  machines : List (String × MachineStatus)

/-- `full_status.applications.get(app_name)` under Python truthiness:
a missing key and a stored `None` are both falsy. -/
def getApp (fs : FullStatus) (name : String) : Option ApplicationStatus :=
  match fs.applications.lookup name with
  | some (some a) => some a
  | _ => none

/-- Return type of `check` (`CheckStatus` in `_idle.py`). -/
structure CheckStatus where
  units : Finset String
  ready_units : Finset String
  idle_units : Finset String
  deriving DecidableEq

/-- The typed errors that `check` raises (`juju/errors.py` members used
by `_idle.py`), carrying the formatted message. -/
inductive JujuError where
  | machineError (msg : String)
  | agentError (msg : String)
  | unitError (msg : String)
  | appError (msg : String)
  deriving DecidableEq

/-- A `check` call either raises a typed juju error or crashes with a
`KeyError`/`AssertionError` on a malformed snapshot. -/
inductive Failure where
  | raised (e : JujuError)
  | crash
  deriving DecidableEq

/-- Python `name.startswith(p)`, compared over code points. -/
def strStartsWith (s p : String) : Bool :=
  p.data.isPrefixOf s.data

/-- Python `dict` assignment `d[k] = v`: replace in place or append. -/
def dictInsert {α : Type} (d : List (String × α)) (k : String) (v : α) :
    List (String × α) :=
  if d.any (fun p => p.1 == k) then
    d.map (fun p => if p.1 == k then (k, v) else p)
  else d ++ [(k, v)]

/-- Python `d.update(e)`: insert every entry of `e` in order. -/
def dictUpdate {α : Type} (d e : List (String × α)) : List (String × α) :=
  e.foldl (fun d p => dictInsert d p.1 p.2) d

/-- `_app_units(full_status, app_name)`: an app's units, walking the
first listed parent's units for a subordinate app. -/
def app_units (fs : FullStatus) (app_name : String) :
    Except Failure (List (String × UnitStatus)) :=
  match getApp fs app_name with
  | none => .error .crash
  | some app =>
    match app.subordinate_to with
    | parent_name :: _ =>
      match getApp fs parent_name with
      | none => .error .crash
      | some parent =>
        .ok (parent.units.foldl
          (fun rv pu =>
            pu.2.subordinates.foldl
              (fun rv p =>
                if strStartsWith p.1 (app_name ++ "/") then dictInsert rv p.1 p.2
                else rv)
              rv)
          [])
    | [] => .ok (app.units.foldl (fun rv p => dictInsert rv p.1 p.2) [])

/-- The `units` dict built at the top of `check`:
`for app_name in apps: units.update(_app_units(full_status, app_name))`. -/
def build_units (fs : FullStatus) :
    List String → List (String × UnitStatus) →
    Except Failure (List (String × UnitStatus))
  | [], acc => .ok acc
  | a :: rest, acc =>
    match app_units fs a with
    | .error e => .error e
    | .ok au => build_units fs rest (dictUpdate acc au)

/-- First error loop of `check`: machine instance status.  `if
unit.machine:` is Python truthiness, so `None` and `""` are skipped;
`full_status.machines[unit.machine]` raises `KeyError` when absent. -/
def machine_loop (fs : FullStatus) (raise_on_error : Bool) :
    List (String × UnitStatus) → Except Failure Unit
  | [] => .ok ()
  | (unit_name, unit) :: rest =>
    match unit.machine with
    | none => machine_loop fs raise_on_error rest
    | some m =>
      if m == "" then machine_loop fs raise_on_error rest
      else
        match fs.machines.lookup m with
        | none => .error .crash
        | some ms =>
          if ms.instance_status.status == "error" && raise_on_error then
            .error (.raised (.machineError
              (unit_name ++ " machine " ++ m ++ " has errored: " ++
                ms.instance_status.info)))
          else machine_loop fs raise_on_error rest

/-- Second error loop of `check`: unit agent status. -/
def agent_loop (raise_on_error : Bool) :
    List (String × UnitStatus) → Except Failure Unit
  | [] => .ok ()
  | (unit_name, unit) :: rest =>
    if unit.agent_status.status == "error" && raise_on_error then
      .error (.raised (.agentError
        (unit_name ++ " agent has errored: " ++ unit.agent_status.info)))
    else agent_loop raise_on_error rest

/-- Third error loop of `check`: unit workload status. -/
def workload_loop (raise_on_error : Bool) :
    List (String × UnitStatus) → Except Failure Unit
  | [] => .ok ()
  | (unit_name, unit) :: rest =>
    if unit.workload_status.status == "error" && raise_on_error then
      .error (.raised (.unitError
        (unit_name ++ " workload has errored: " ++ unit.workload_status.info)))
    else workload_loop raise_on_error rest

/-- Fourth error loop of `check`: application status
(`full_status.applications[app_name]` plus `assert isinstance`). -/
def app_error_loop (fs : FullStatus) (raise_on_error : Bool) :
    List String → Except Failure Unit
  | [] => .ok ()
  | a :: rest =>
    match getApp fs a with
    | none => .error .crash
    | some app =>
      if app.status.status == "error" && raise_on_error then
        .error (.raised (.appError (a ++ " has errored: " ++ app.status.info)))
      else app_error_loop fs raise_on_error rest

/-- Fifth loop of `check`: blocked unit workload. -/
def unit_blocked_loop (raise_on_blocked : Bool) :
    List (String × UnitStatus) → Except Failure Unit
  | [] => .ok ()
  | (unit_name, unit) :: rest =>
    if unit.workload_status.status == "blocked" && raise_on_blocked then
      .error (.raised (.unitError
        (unit_name ++ " workload is blocked: " ++ unit.workload_status.info)))
    else unit_blocked_loop raise_on_blocked rest

/-- Sixth loop of `check`: blocked application. -/
def app_blocked_loop (fs : FullStatus) (raise_on_blocked : Bool) :
    List String → Except Failure Unit
  | [] => .ok ()
  | a :: rest =>
    match getApp fs a with
    | none => .error .crash
    | some app =>
      if app.status.status == "blocked" && raise_on_blocked then
        .error (.raised (.appError (a ++ " is blocked: " ++ app.status.info)))
      else app_blocked_loop fs raise_on_blocked rest

/-- Python `if status and unit.workload_status.status != status:
continue` — the skip guard for `ready_units`, with `status` truthiness
(a `None` or empty target string disables the workload filter). -/
def status_skip : Option String → UnitStatus → Bool
  | none, _ => false
  | some s, u => if s == "" then false else u.workload_status.status != s

/-- One unit of the readiness classification at the bottom of `check`:
always add to `units`; add to `ready_units` iff the agent is `idle` and
the workload matches the requested status.  `idle_units` is not
touched (the FIXME at the bottom of `check`). -/
def classify_unit (status : Option String) (rv : CheckStatus)
    (p : String × UnitStatus) : CheckStatus :=
  let rv2 := { rv with units := insert p.1 rv.units }
  if p.2.agent_status.status ≠ "idle" then rv2
  else if status_skip status p.2 then rv2
  else { rv2 with ready_units := insert p.1 rv2.ready_units }

/-- The readiness classification loop at the bottom of `check`. -/
def classify (fs : FullStatus) (status : Option String) :
    List String → CheckStatus → Except Failure CheckStatus
  | [], rv => .ok rv
  | app_name :: rest, rv =>
    match getApp fs app_name with
    | none => .error .crash
    | some _ =>
      match app_units fs app_name with
      | .error e => .error e
      | .ok au => classify fs status rest (au.foldl (classify_unit status) rv)

/-- `check(full_status, apps=..., raise_on_error=..., raise_on_blocked=...,
status=...)`: `.ok none` is the "waiting for an app" `return None`,
`.ok (some rv)` a produced `CheckStatus`. -/
def check (fs : FullStatus) (apps : List String)
    (raise_on_error raise_on_blocked : Bool) (status : Option String) :
    Except Failure (Option CheckStatus) :=
  if apps.any (fun a => (getApp fs a).isNone) then .ok none
  else
    match build_units fs apps [] with
    | .error e => .error e
    | .ok units =>
      match machine_loop fs raise_on_error units with
      | .error e => .error e
      | .ok _ =>
        match agent_loop raise_on_error units with
        | .error e => .error e
        | .ok _ =>
          match workload_loop raise_on_error units with
          | .error e => .error e
          | .ok _ =>
            match app_error_loop fs raise_on_error apps with
            | .error e => .error e
            | .ok _ =>
              match unit_blocked_loop raise_on_blocked units with
              | .error e => .error e
              | .ok _ =>
                match app_blocked_loop fs raise_on_blocked apps with
                | .error e => .error e
                | .ok _ =>
                  match classify fs status apps ⟨∅, ∅, ∅⟩ with
                  | .error e => .error e
                  | .ok rv => .ok (some rv)

/-!
The aggregator.  Python's `float` timestamps are modelled by an
arbitrary linearly ordered type `T` with subtraction (so the general
theorems hold for any exact model of the reals; concrete scenarios
instantiate `T := ℤ`), and the sentinel `float("inf")` by an explicit
constructor.
-/

variable {T : Type} [LinearOrder T] [Sub T]

/-- A timestamp that may be the sentinel `float("inf")`. -/
inductive TimeVal (T : Type) where
  | fin (t : T)
  | inf
  deriving DecidableEq

/-- `min(now, t)` where `t` may be `float("inf")`. -/
def TimeVal.minNow (now : T) : TimeVal T → TimeVal T
  | .fin t => .fin (min now t)
  | .inf => .fin now

/-- `t > e` where `t` may be `float("inf")` and `e` is finite. -/
def TimeVal.gtT : TimeVal T → T → Bool
  | .inf, _ => true
  | .fin t, e => decide (e < t)

/-- The aggregator's `idle_since: dict[str, float]`: its key set plus a
valuation (the valuation is only meaningful on `keys`; `get` supplies
the absent-entry default `float("inf")`). -/
structure ClockMap (T : Type) where
  keys : Finset String
  val : String → TimeVal T

/-- `idle_since.get(name, float("inf"))`. -/
def ClockMap.get (c : ClockMap T) (n : String) : TimeVal T :=
  if n ∈ c.keys then c.val n else .inf

/-- The empty `idle_since` dict that `loop` starts from. -/
def emptyClock : ClockMap T := ⟨∅, fun _ => .inf⟩

/-- Configuration of one `loop` invocation (its keyword arguments). -/
structure LoopConfig (T : Type) where
  apps : Finset String
  wait_for_exact_units : Option ℕ
  wait_for_units : ℕ
  idle_period : T

/-- The clock-update loop of `loop`:
`for name in status.units:` set the entry to `min(now, existing)` when
the unit is in `status.ready_units`, else to `float("inf")`.  Each
name is assigned exactly once, so the set iteration is rendered as a
pointwise update. -/
def update_clock (c : ClockMap T) (st : CheckStatus) (now : T) :
    ClockMap T where
  keys := c.keys ∪ st.units
  val := fun n =>
    if n ∈ st.units then
      if n ∈ st.ready_units then (c.get n).minNow now else .inf
    else c.val n

/-- The per-app count checks of `loop`: at least `wait_for_units`
ready units with this app's `"<app>/"` name prefix, and exactly
`wait_for_exact_units` of them when that is set. -/
def app_count_ok (cfg : LoopConfig T) (ready : Finset String)
    (app : String) : Bool :=
  let k := (ready.filter (fun u => strStartsWith u (app ++ "/") = true)).card
  decide (cfg.wait_for_units ≤ k) &&
    match cfg.wait_for_exact_units with
    | some e => decide (k = e)
    | none => true

/-- `rv` after the `for app_name in apps:` loop of `loop`. -/
def counts_ok (cfg : LoopConfig T) (ready : Finset String) : Bool :=
  decide (∀ app ∈ cfg.apps, app_count_ok cfg ready app = true)

/-- The busy check of `loop`: every `idle_since` entry (stale ones
included) is compared against `now - idle_period`. -/
def busy_units (cfg : LoopConfig T) (c : ClockMap T) (now : T) :
    Finset String :=
  c.keys.filter (fun n => (c.val n).gtT (now - cfg.idle_period) = true)

/-- One iteration of `loop`'s `async for` body: consume one
`CheckStatus | None` at monotonic time `now`, returning the new clock
state and the yielded boolean. -/
def loop_step (cfg : LoopConfig T) (c : ClockMap T) (now : T)
    (status : Option CheckStatus) : ClockMap T × Bool :=
  match status with
  | none => (c, false)
  | some st =>
    let c2 := update_clock c st now
    let rv := counts_ok cfg st.ready_units &&
      decide (busy_units cfg c2 now = ∅)
    (c2, rv)

/-- Unrolling `loop` over a finite list of `(now, status)` inputs:
the list of yielded booleans. -/
def unroll (cfg : LoopConfig T) (c : ClockMap T) :
    List (T × Option CheckStatus) → List Bool
  | [] => []
  | (now, st) :: rest =>
    let r := loop_step cfg c now st
    r.2 :: unroll cfg r.1 rest

/-!
Decidable side conditions about snapshots, used to state hypotheses of
the theorems below, and concrete fixtures for witnesses and scenarios.
-/

/-- The machine lookup for a unit's `machine` field cannot crash:
either there is no (truthy) machine reference, or the referenced
machine is present in `full_status.machines`. -/
def machine_lookup_ok (fs : FullStatus) : Option String → Bool
  | none => true
  | some m => if m == "" then true else (fs.machines.lookup m).isSome

/-- The unit's bound machine exists and its instance status is
`error`. -/
def machine_has_error (fs : FullStatus) : Option String → Bool
  | none => false
  | some m =>
    if m == "" then false
    else
      match fs.machines.lookup m with
      | some ms => ms.instance_status.status == "error"
      | none => false

/-- The named application is present and its own status is `error`. -/
def app_has_error (fs : FullStatus) (a : String) : Bool :=
  match getApp fs a with
  | some app => app.status.status == "error"
  | none => false

/-- The call raised `JujuMachineError`. -/
def is_machine_error : Except Failure (Option CheckStatus) → Bool
  | .error (.raised (.machineError _)) => true
  | _ => false

/-- Scenario A snapshot: one application `hexanator` with one unit
`hexanator/0`, agent `idle`, workload `active`. -/
def hexUnit : UnitStatus := .mk none ⟨"idle", ""⟩ ⟨"active", ""⟩ []

/-- Scenario A snapshot (`FullStatus`). -/
def fsHex : FullStatus :=
  ⟨[("hexanator", some ⟨⟨"active", ""⟩, [("hexanator/0", hexUnit)], []⟩)], []⟩

/-- Aggregator configuration of scenario D and of the ping-pong test:
`apps={hexanator}`, `wait_for_units=1`, `idle_period=15`. -/
def cfgHex : LoopConfig ℤ := ⟨{"hexanator"}, none, 1, 15⟩

/-- A fully ready record for `hexanator/0`. -/
def recReady : CheckStatus :=
  ⟨{"hexanator/0"}, {"hexanator/0"}, {"hexanator/0"}⟩

/-- A record whose unit is in `ready_units` but not in `idle_units`
(the `bad` record of the repository's ping-pong unit test). -/
def recNotIdle : CheckStatus := ⟨{"hexanator/0"}, {"hexanator/0"}, ∅⟩

/-- A snapshot with both a machine error (unit `a/0` on machine `42`)
and an application error (app `a` itself), for the precedence claim. -/
def fsErr : FullStatus :=
  ⟨[("a", some ⟨⟨"error", "boom"⟩,
      [("a/0", .mk (some "42") ⟨"idle", ""⟩ ⟨"active", ""⟩ [])], []⟩)],
   [("42", ⟨⟨"error", "potato"⟩⟩)]⟩

/-- The `units` dict `check` builds for `fsErr` with `apps=["a"]`. -/
def usErr : List (String × UnitStatus) :=
  [("a/0", .mk (some "42") ⟨"idle", ""⟩ ⟨"active", ""⟩ [])]

/-- Aggregator configuration for the stale-unit scenario:
`apps={u}`, `wait_for_units=1`, `idle_period=15`. -/
def cfgU : LoopConfig ℤ := ⟨{"u"}, none, 1, 15⟩

/-- First record of the stale-unit scenario: `u/1` is observed but not
ready, so its clock entry is set to the `+infinity` sentinel. -/
def recU1 : CheckStatus := ⟨{"u/0", "u/1"}, {"u/0"}, {"u/0"}⟩

/-- Second record of the stale-unit scenario: `u/1` has disappeared;
the one remaining unit is fully ready. -/
def recU2 : CheckStatus := ⟨{"u/0"}, {"u/0"}, {"u/0"}⟩

/-- The clock after feeding `recU1` at time 0: `u/0 ↦ 0`,
`u/1 ↦ +infinity` (stale once `u/1` disappears). -/
def clockStale : ClockMap ℤ := (loop_step cfgU emptyClock 0 (some recU1)).1

/-- A clock that agrees with `clockStale` on the units of `recU2` but
holds no stale entry for the vanished `u/1`. -/
def clockFresh : ClockMap ℤ := ⟨{"u/0"}, fun _ => .fin 0⟩

/-!
Helper lemmas about the readiness classification and the structure of
`check`, shared by several claims.
-/

theorem classify_unit_idle_units (st : Option String) (rv : CheckStatus)
    (p : String × UnitStatus) :
    (classify_unit st rv p).idle_units = rv.idle_units := by
  unfold classify_unit
  dsimp only
  split
  · rfl
  · split
    · rfl
    · rfl

theorem classify_unit_subset (st : Option String) (rv : CheckStatus)
    (p : String × UnitStatus) (h : rv.ready_units ⊆ rv.units) :
    (classify_unit st rv p).ready_units ⊆ (classify_unit st rv p).units := by
  unfold classify_unit
  dsimp only
  split
  · exact h.trans (Finset.subset_insert _ _)
  · split
    · exact h.trans (Finset.subset_insert _ _)
    · exact Finset.insert_subset_insert _ h

theorem foldl_classify_idle_units (st : Option String)
    (au : List (String × UnitStatus)) :
    ∀ rv : CheckStatus,
      (au.foldl (classify_unit st) rv).idle_units = rv.idle_units := by
  induction au with
  | nil => intro rv; rfl
  | cons p l ih =>
    intro rv
    rw [List.foldl_cons, ih, classify_unit_idle_units]

theorem foldl_classify_subset (st : Option String)
    (au : List (String × UnitStatus)) :
    ∀ rv : CheckStatus, rv.ready_units ⊆ rv.units →
      (au.foldl (classify_unit st) rv).ready_units ⊆
        (au.foldl (classify_unit st) rv).units := by
  induction au with
  | nil => intro rv h; exact h
  | cons p l ih =>
    intro rv h
    rw [List.foldl_cons]
    exact ih _ (classify_unit_subset st rv p h)

theorem classify_idle_units (fs : FullStatus) (st : Option String) :
    ∀ (l : List String) (acc rv : CheckStatus),
      classify fs st l acc = .ok rv → rv.idle_units = acc.idle_units := by
  intro l
  induction l with
  | nil =>
    intro acc rv h
    unfold classify at h
    cases h
    rfl
  | cons a l ih =>
    intro acc rv h
    unfold classify at h
    split at h
    · cases h
    · split at h
      · cases h
      · rw [ih _ _ h, foldl_classify_idle_units]

theorem classify_subset (fs : FullStatus) (st : Option String) :
    ∀ (l : List String) (acc rv : CheckStatus),
      classify fs st l acc = .ok rv → acc.ready_units ⊆ acc.units →
      rv.ready_units ⊆ rv.units := by
  intro l
  induction l with
  | nil =>
    intro acc rv h hs
    unfold classify at h
    cases h
    exact hs
  | cons a l ih =>
    intro acc rv h hs
    unfold classify at h
    split at h
    · cases h
    · split at h
      · cases h
      · exact ih _ _ h (foldl_classify_subset st _ acc hs)

theorem check_ok_classify {fs : FullStatus} {apps : List String}
    {roe rob : Bool} {st : Option String} {rv : CheckStatus}
    (h : check fs apps roe rob st = .ok (some rv)) :
    classify fs st apps ⟨∅, ∅, ∅⟩ = .ok rv := by
  unfold check at h
  split at h
  · cases h
  · split at h
    · cases h
    · split at h
      · cases h
      · split at h
        · cases h
        · split at h
          · cases h
          · split at h
            · cases h
            · split at h
              · cases h
              · split at h
                · cases h
                · split at h
                  · cases h
                  · rename_i heq
                    cases h
                    exact heq

/-!
The claims.
-/

/-- Claim C3: whenever one of the named applications is absent from
the snapshot, `check` returns `None` (absent), for every setting of
`raise_on_error` and `raise_on_blocked`, and never raises. -/
theorem c3_absent_app_returns_absent (fs : FullStatus) (apps : List String)
    (roe rob : Bool) (st : Option String) (a : String)
    (ha : a ∈ apps) (hn : getApp fs a = none) :
    check fs apps roe rob st = .ok none := by
  unfold check
  rw [if_pos]
  exact List.any_eq_true.2 ⟨a, ha, by rw [hn]; rfl⟩

/-- Witness for C3: a snapshot that only knows `hexanator`, queried for
`missing`, returns absent even with both raise flags set. -/
theorem c3_witness : check fsHex ["missing"] true true none = .ok none :=
  c3_absent_app_returns_absent fsHex ["missing"] true true none "missing"
    (by decide) (by rfl)

/-- Claim C5: every non-absent record produced by `check` satisfies
`ready_units ⊆ units` and `idle_units ⊆ units`. -/
theorem c5_subset_invariant (fs : FullStatus) (apps : List String)
    (roe rob : Bool) (st : Option String) (rv : CheckStatus)
    (h : check fs apps roe rob st = .ok (some rv)) :
    rv.ready_units ⊆ rv.units ∧ rv.idle_units ⊆ rv.units := by
  have hc := check_ok_classify h
  constructor
  · exact classify_subset fs st apps _ rv hc (by simp)
  · rw [classify_idle_units fs st apps _ rv hc]
    exact Finset.empty_subset _

/-- Witness for C5: the subset invariant evaluated on the scenario A
snapshot. -/
theorem c5_witness :
    (⟨{"hexanator/0"}, {"hexanator/0"}, ∅⟩ : CheckStatus).ready_units ⊆
        (⟨{"hexanator/0"}, {"hexanator/0"}, ∅⟩ : CheckStatus).units ∧
      (⟨{"hexanator/0"}, {"hexanator/0"}, ∅⟩ : CheckStatus).idle_units ⊆
        (⟨{"hexanator/0"}, {"hexanator/0"}, ∅⟩ : CheckStatus).units :=
  c5_subset_invariant fsHex ["hexanator"] false false none
    ⟨{"hexanator/0"}, {"hexanator/0"}, ∅⟩ (by rfl)

/-- Claim C10: `check` never adds any unit to `idle_units`: every
non-absent record it returns has an empty `idle_units` field. -/
theorem c10_idle_units_empty (fs : FullStatus) (apps : List String)
    (roe rob : Bool) (st : Option String) (rv : CheckStatus)
    (h : check fs apps roe rob st = .ok (some rv)) :
    rv.idle_units = ∅ :=
  classify_idle_units fs st apps _ rv (check_ok_classify h)

/-- Witness for C10: the scenario A snapshot produces an empty
`idle_units`. -/
theorem c10_witness :
    (⟨{"hexanator/0"}, {"hexanator/0"}, ∅⟩ : CheckStatus).idle_units = ∅ :=
  c10_idle_units_empty fsHex ["hexanator"] false false none
    ⟨{"hexanator/0"}, {"hexanator/0"}, ∅⟩ (by rfl)

/-- Claim C7: `check` is a pure function of the snapshot and its
arguments, so two calls on the same input agree (same record, or the
same error). -/
theorem c7_check_deterministic (fs : FullStatus) (apps : List String)
    (roe rob : Bool) (st : Option String) :
    check fs apps roe rob st = check fs apps roe rob st := rfl

/-- Claim C6 (scenario D): four identical fully-ready records spaced
10 time-units apart, with `wait_for_units=1` and `idle_period=15`,
yield the verdicts `[false, false, true, true]`. -/
theorem c6_idle_period_verdicts :
    unroll cfgHex emptyClock
      [((0 : ℤ), some recReady), (10, some recReady),
       (20, some recReady), (30, some recReady)] =
      [false, false, true, true] := by decide

/-- Claim C2, against the code: on the scenario A snapshot the code
returns `units={hexanator/0}` and `ready_units={hexanator/0}` as the
claim says, but `idle_units=∅` — `check` never populates `idle_units`
(the FIXME above its `return`), contradicting the claim, the spec and
the repository's own unit tests. -/
theorem c2_code_leaves_idle_units_empty :
    check fsHex ["hexanator"] false false none =
      .ok (some ⟨{"hexanator/0"}, {"hexanator/0"}, ∅⟩) := by rfl

/-- Claim C1, against the code: the clock update of `loop` tests
membership in `ready_units`, not in `idle_units`.  On a record whose
unit is ready but not idle, the unit's clock entry becomes
`min(now, +infinity) = now` instead of the `+infinity` the claim
prescribes, and the ping-pong sequence of the repository's own
`test_idle_ping_pong` therefore yields `[false, false, true, true]`
where that test expects `[false, false, false, false]`. -/
theorem c1_clock_keyed_on_ready_units :
    (loop_step cfgHex emptyClock (0 : ℤ) (some recNotIdle)).1.get
        "hexanator/0" = TimeVal.fin 0 ∧
      unroll cfgHex emptyClock
        [((0 : ℤ), some recReady), (10, some recNotIdle),
         (20, some recReady), (30, some recNotIdle)] =
        [false, false, true, true] := by decide

/-- Claim C9: one `loop` step never deletes a clock entry: the key set
only grows, on a non-absent record every unit of `record.units` gets
an entry, entries of units outside `record.units` are unchanged, and
an absent record leaves the clock untouched. -/
theorem c9_clock_monotone {T : Type} [LinearOrder T] [Sub T]
    (cfg : LoopConfig T) (c : ClockMap T) (now : T)
    (st : Option CheckStatus) :
    c.keys ⊆ (loop_step cfg c now st).1.keys ∧
      (∀ r, st = some r → r.units ⊆ (loop_step cfg c now st).1.keys ∧
        ∀ n, n ∉ r.units → (loop_step cfg c now st).1.get n = c.get n) ∧
      (st = none → (loop_step cfg c now st).1 = c) := by
  cases st with
  | none =>
    refine ⟨Finset.Subset.refl _, ?_, fun _ => rfl⟩
    intro r hr
    cases hr
  | some s =>
    refine ⟨?_, ?_, ?_⟩
    · show c.keys ⊆ c.keys ∪ s.units
      exact Finset.subset_union_left
    · intro r hr
      cases hr
      constructor
      · show s.units ⊆ c.keys ∪ s.units
        exact Finset.subset_union_right
      · intro n hn
        show (update_clock c s now).get n = c.get n
        unfold ClockMap.get update_clock
        simp only [Finset.mem_union, hn]
        by_cases hk : n ∈ c.keys <;> simp [hk, hn]
    · intro h
      cases h

/-- Witness for C9: a unit name never observed keeps its (absent)
entry across a step on a concrete record. -/
theorem c9_witness :
    (loop_step cfgU clockFresh (100 : ℤ) (some recU2)).1.get "ghost" =
      clockFresh.get "ghost" :=
  ((c9_clock_monotone cfgU clockFresh 100 (some recU2)).2.1 recU2 rfl).2
    "ghost" (by decide)

/-- Counterexample to claim C8: two clocks that agree on every unit of
the current record (`recU2.units = {u/0}`, both map `u/0` to time 0)
produce different verdicts, because the busy check iterates over the
stale entry the vanished unit `u/1` left behind.  Stale entries are
not inert. -/
theorem c8_counterexample :
    (loop_step cfgU clockStale (100 : ℤ) (some recU2)).2 = false ∧
      (loop_step cfgU clockFresh (100 : ℤ) (some recU2)).2 = true ∧
      clockStale.get "u/0" = clockFresh.get "u/0" := by decide

/-- Claim C8 as amended: stale clock entries are live, not inert: if
any tracked unit — also one absent from `record.units` — has a clock
entry exceeding `now - idle_period` (for a vanished non-ready unit,
the `+infinity` sentinel), the step's verdict is forced to `false`. -/
theorem c8_stale_entry_forces_false {T : Type} [LinearOrder T] [Sub T]
    (cfg : LoopConfig T) (c : ClockMap T) (now : T) (st : CheckStatus)
    (n : String) (hk : n ∈ c.keys) (hu : n ∉ st.units)
    (hb : (c.val n).gtT (now - cfg.idle_period) = true) :
    (loop_step cfg c now (some st)).2 = false := by
  have hmem : n ∈ busy_units cfg (update_clock c st now) now := by
    unfold busy_units
    refine Finset.mem_filter.2 ⟨?_, ?_⟩
    · exact Finset.mem_union_left _ hk
    · show ((update_clock c st now).val n).gtT (now - cfg.idle_period) = true
      unfold update_clock
      simp only
      rw [if_neg hu]
      exact hb
  show (counts_ok cfg st.ready_units &&
      decide (busy_units cfg (update_clock c st now) now = ∅)) = false
  rw [decide_eq_false (Finset.ne_empty_of_mem hmem), Bool.and_false]

/-- Witness for the amended C8: the stale `+infinity` entry of the
vanished unit `u/1` forces the verdict `false` at time 100 even though
every present unit has been idle since time 0. -/
theorem c8_witness :
    (loop_step cfgU clockStale (100 : ℤ) (some recU2)).2 = false :=
  c8_stale_entry_forces_false cfgU clockStale 100 recU2 "u/1"
    (by decide) (by decide) (by decide)

theorem machine_loop_raises (fs : FullStatus) :
    ∀ us : List (String × UnitStatus),
      (∀ p ∈ us, machine_lookup_ok fs p.2.machine = true) →
      (∃ p ∈ us, machine_has_error fs p.2.machine = true) →
      ∃ msg, machine_loop fs true us = .error (.raised (.machineError msg)) := by
  intro us
  induction us with
  | nil =>
    intro _ herr
    simp at herr
  | cons q l ih =>
    intro hok herr
    obtain ⟨n, u⟩ := q
    have hok_head := hok (n, u) (List.mem_cons_self _ _)
    have hok_tail : ∀ p ∈ l, machine_lookup_ok fs p.2.machine = true :=
      fun p hp => hok p (List.mem_cons_of_mem _ hp)
    unfold machine_loop
    cases hm : u.machine with
    | none =>
      apply ih hok_tail
      obtain ⟨p, hp, he⟩ := herr
      rcases List.mem_cons.1 hp with rfl | h
      · exact absurd he (by simp [machine_has_error, hm])
      · exact ⟨p, h, he⟩
    | some m =>
      rw [hm] at hok_head
      unfold machine_lookup_ok at hok_head
      dsimp only at hok_head ⊢
      cases hm0 : (m == "") with
      | true =>
        rw [if_pos rfl]
        apply ih hok_tail
        obtain ⟨p, hp, he⟩ := herr
        rcases List.mem_cons.1 hp with rfl | h
        · exact absurd he (by simp [machine_has_error, hm, hm0])
        · exact ⟨p, h, he⟩
      | false =>
        have hm0' : ¬((m == "") = true) := by
          rw [hm0]
          exact Bool.false_ne_true
        rw [if_neg Bool.false_ne_true]
        rw [if_neg hm0'] at hok_head
        obtain ⟨ms, hms⟩ := Option.isSome_iff_exists.1 hok_head
        rw [hms]
        dsimp only
        cases hse : (ms.instance_status.status == "error") with
        | true =>
          exact ⟨n ++ " machine " ++ m ++ " has errored: " ++
            ms.instance_status.info, by simp⟩
        | false =>
          rw [if_neg (by simp)]
          apply ih hok_tail
          obtain ⟨p, hp, he⟩ := herr
          rcases List.mem_cons.1 hp with rfl | h
          · exact absurd he (by simp [machine_has_error, hm, hm0, hms, hse])
          · exact ⟨p, h, he⟩

/-- Claim C4: on a snapshot holding both an in-scope machine error and
an in-scope application error, `check` with `raise_on_error=true`
raises the machine error (the machine loop runs first), not the app
error.  The hypotheses say: every named application is present, the
`units` dict builds successfully, every bound machine of those units
resolves (so the machine loop cannot crash first), some unit's machine
has instance status `error`, and some named application's own status
is `error`. -/
theorem c4_machine_error_precedence (fs : FullStatus) (apps : List String)
    (rob : Bool) (st : Option String) (us : List (String × UnitStatus))
    (happ : ∀ a ∈ apps, (getApp fs a).isSome = true)
    (hbuild : build_units fs apps [] = .ok us)
    (hok : ∀ p ∈ us, machine_lookup_ok fs p.2.machine = true)
    (herr : ∃ p ∈ us, machine_has_error fs p.2.machine = true)
    (_happerr : ∃ a ∈ apps, app_has_error fs a = true) :
    is_machine_error (check fs apps true rob st) = true := by
  obtain ⟨msg, hm⟩ := machine_loop_raises fs us hok herr
  have hguard : ¬(apps.any (fun a => (getApp fs a).isNone) = true) := by
    intro hcon
    obtain ⟨a, ha, hisnone⟩ := List.any_eq_true.1 hcon
    have hsome := happ a ha
    rw [Option.isNone_iff_eq_none] at hisnone
    rw [hisnone] at hsome
    simp at hsome
  unfold check
  rw [if_neg hguard, hbuild]
  dsimp only
  rw [hm]
  rfl

/-- Witness for C4: the concrete snapshot `fsErr` (app `a` errored,
its unit `a/0` on errored machine `42`) raises the machine error. -/
theorem c4_witness : is_machine_error (check fsErr ["a"] true false none) = true :=
  c4_machine_error_precedence fsErr ["a"] false none usErr (by decide)
    (by rfl) (by decide) (by decide) (by decide)

end WaitForIdle
